import Mathlib

/-!
Shallow embedding of the transaction validation core
(src/verification/src/transaction_verifier.rs) and proofs of the
specification's claims about it.

Machine integers (u64) are modelled as Nat; arithmetic that the source
performs on u64 and that can exceed 2^64 - 1 is reduced modulo 2^64,
matching the wrapping behaviour of release builds.  Checked additions
(Capacity::safe_add) are modelled as Option-valued addition.  The one
place the source can abort (the expect call in the maturity checker) is
modelled by an Option-valued result, none meaning abort.
-/

namespace Ckb

/-! ## Data model (ckb_core types as consumed by the verifier) -/

/-! ## Leaf checkers -/

/-! ## The since field (RFC 0017) -/

/-! ## Median-time cache and since verifier -/

/-! ## Script shim and the full orchestrator -/

deriving instance DecidableEq for Except

/-- The u64 modulus. -/
def U64 : Nat := 2 ^ 64

/-- Block metadata attached to a committed cell: producing block number and epoch. -/
structure BlockInfo where
  number : Nat
  epoch : Nat
deriving Repr, DecidableEq

/-- A committed cell as seen by the verifier. -/
structure CellMeta where
  capacity : Nat
  is_cellbase : Bool
  block_info : Option BlockInfo
deriving Repr, DecidableEq

/-- ResolvedOutPoint: a committed cell, or none for a cell still in the mempool. -/
abbrev ResolvedOutPoint : Type := Option CellMeta

/-- Accessor mirroring ResolvedOutPoint::cell. -/
def ResolvedOutPoint.cell (r : ResolvedOutPoint) : Option CellMeta := r

/-- A transaction input: only the since lock matters to the verifier. -/
structure CellInput where
  since : Nat
deriving Repr, DecidableEq

/-- A transaction output: capacity plus the externally defined
occupied-capacity-overflow predicate. -/
structure CellOutput where
  capacity : Nat
  is_occupied_capacity_overflow : Bool
deriving Repr, DecidableEq

/-- The transaction record, with the externally defined predicates the
verifier consults modelled as fields. -/
structure Transaction where
  version : Nat
  inputs : List CellInput
  outputs : List CellOutput
  deps : List Nat
  is_empty : Bool
  is_withdrawing_from_dao : Bool
deriving Repr, DecidableEq

/-- The resolved transaction: the transaction plus the resolved view of its
inputs and deps.  is_cellbase is ResolvedTransaction's own predicate. -/
structure ResolvedTransaction where
  transaction : Transaction
  resolved_inputs : List ResolvedOutPoint
  resolved_deps : List ResolvedOutPoint
  is_cellbase : Bool

/-- The error taxonomy of the verifier.  ScriptFailure wraps the opaque
script-engine error, modelled as a Nat. -/
inductive TransactionError where
  | Version
  | Empty
  | CellbaseImmaturity
  | OutputsSumOverflow
  | CapacityOverflow
  | DuplicateDeps
  | InvalidSince
  | Immature
  | ScriptFailure (inner : Nat)
deriving Repr, DecidableEq

/-- The fixed protocol constant TX_VERSION (external to the verifier; its
value is never load-bearing for any claim). -/
def TX_VERSION : Nat := 0

/-- VersionVerifier::verify. -/
def version_verify (t : Transaction) : Except TransactionError Unit :=
  if t.version ≠ TX_VERSION then .error .Version else .ok ()

/-- EmptyVerifier::verify. -/
def empty_verify (t : Transaction) : Except TransactionError Unit :=
  if t.is_empty then .error .Empty else .ok ()

/-- The HashSet-insertion loop of DuplicateDepsVerifier::verify:
all inserts succeed iff no dep repeats an already seen one. -/
def all_insert (seen : List Nat) : List Nat → Bool
  | [] => true
  | d :: ds => if d ∈ seen then false else all_insert (d :: seen) ds

/-- DuplicateDepsVerifier::verify. -/
def duplicate_deps_verify (t : Transaction) : Except TransactionError Unit :=
  if all_insert [] t.deps then .ok () else .error .DuplicateDeps

/-- The cellbase_immature closure of MaturityVerifier::verify.  none models
the expect-abort on a cellbase cell with no block info; the u64 addition
wraps modulo 2^64 in release builds. -/
def cellbase_immature (tip_number cellbase_maturity : Nat) (meta : CellMeta) : Option Bool :=
  if meta.is_cellbase then
    match meta.block_info with
    | some bi => some (decide (tip_number < (bi.number + cellbase_maturity) % U64))
    | none => none
  else
    some false

/-- Short-circuiting any over a predicate that may abort (Iterator::any with
a panicking closure): stops at the first true, aborts at the first none
reached. -/
def any_opt (p : α → Option Bool) : List α → Option Bool
  | [] => some false
  | x :: xs =>
    match p x with
    | none => none
    | some true => some true
    | some false => any_opt p xs

/-- MaturityVerifier::verify: inputs are scanned first, deps only when no
input cell already triggered (the source's lazy disjunction). -/
def maturity_verify (rtx : ResolvedTransaction) (tip_number cellbase_maturity : Nat) :
    Option (Except TransactionError Unit) :=
  match any_opt (cellbase_immature tip_number cellbase_maturity)
      (rtx.resolved_inputs.filterMap ResolvedOutPoint.cell) with
  | none => none
  | some true => some (.error .CellbaseImmaturity)
  | some false =>
    match any_opt (cellbase_immature tip_number cellbase_maturity)
        (rtx.resolved_deps.filterMap ResolvedOutPoint.cell) with
    | none => none
    | some true => some (.error .CellbaseImmaturity)
    | some false => some (.ok ())

/-- Modelled from the spec: Capacity::safe_add, the checked u64 addition of
the external Capacity type, failing on overflow past 2^64 - 1. -/
def safe_add (a b : Nat) : Option Nat :=
  if a + b < U64 then some (a + b) else none

/-- A try_fold of safe_add over a list of capacities, starting from
Capacity::zero. -/
def sum_capacities (caps : List Nat) : Option Nat :=
  caps.foldlM safe_add 0

/-- The capacity contributed by one resolved input: the committed cell's
capacity, or zero for an unresolved (mempool) entry. -/
def input_capacity (r : ResolvedOutPoint) : Nat :=
  (r.cell.map CellMeta.capacity).getD 0

/-- CapacityVerifier::verify.  The sum comparison is skipped for cellbase
and DAO-withdrawing transactions; the per-output occupied-capacity check
runs regardless. -/
def capacity_verify (rtx : ResolvedTransaction) : Except TransactionError Unit :=
  let sum_check : Except TransactionError Unit :=
    if rtx.is_cellbase || rtx.transaction.is_withdrawing_from_dao then .ok ()
    else
      match sum_capacities (rtx.resolved_inputs.map input_capacity) with
      | none => .error .CapacityOverflow
      | some inputs_total =>
        match sum_capacities (rtx.transaction.outputs.map CellOutput.capacity) with
        | none => .error .CapacityOverflow
        | some outputs_total =>
          if inputs_total < outputs_total then .error .OutputsSumOverflow else .ok ()
  match sum_check with
  | .error e => .error e
  | .ok _ =>
    if rtx.transaction.outputs.any CellOutput.is_occupied_capacity_overflow then
      .error .CapacityOverflow
    else
      .ok ()

def LOCK_TYPE_FLAG : Nat := 1 <<< 63

def METRIC_TYPE_FLAG_MASK : Nat := 0x6000000000000000

def VALUE_MASK : Nat := 0x00ffffffffffffff

def REMAIN_FLAGS_BITS : Nat := 0x1f00000000000000

inductive SinceMetric where
  | BlockNumber (v : Nat)
  | EpochNumber (v : Nat)
  | Timestamp (v : Nat)
deriving Repr, DecidableEq

/-- Since::is_absolute. -/
def Since.is_absolute (s : Nat) : Bool := s &&& LOCK_TYPE_FLAG == 0

/-- Since::is_relative. -/
def Since.is_relative (s : Nat) : Bool := ! Since.is_absolute s

/-- Since::flags_is_valid. -/
def Since.flags_is_valid (s : Nat) : Bool :=
  (s &&& REMAIN_FLAGS_BITS == 0) && (s &&& METRIC_TYPE_FLAG_MASK != 0x6000000000000000)

/-- Since::extract_metric.  The timestamp value is converted from seconds to
milliseconds by a u64 multiplication, which wraps modulo 2^64. -/
def Since.extract_metric (s : Nat) : Option SinceMetric :=
  let value := s &&& VALUE_MASK
  let m := s &&& METRIC_TYPE_FLAG_MASK
  if m = 0x0000000000000000 then some (.BlockNumber value)
  else if m = 0x2000000000000000 then some (.EpochNumber value)
  else if m = 0x4000000000000000 then some (.Timestamp (value * 1000 % U64))
  else none

/-- Modelled from the spec: the external bounded LRU cache (lru_cache crate)
mapping block numbers to cached oracle answers.  Entries are kept most
recent first; get is read-only (the source calls it through an immutable
borrow), insert places the key in front and drops the least recent entry
beyond capacity. -/
structure LruCache where
  capacity : Nat
  entries : List (Nat × Option Nat)
deriving Repr, DecidableEq

/-- Cache lookup, no recency update. -/
def LruCache.get (c : LruCache) (k : Nat) : Option (Option Nat) :=
  (c.entries.find? (fun e => e.1 == k)).map Prod.snd

/-- Cache insertion with eviction beyond capacity. -/
def LruCache.insert (c : LruCache) (k : Nat) (v : Option Nat) : LruCache :=
  ⟨c.capacity, ((k, v) :: c.entries.filter (fun e => e.1 ≠ k)).take c.capacity⟩

/-- The keys currently cached. -/
def LruCache.keys (c : LruCache) : List Nat := c.entries.map Prod.fst

/-- The mutable state of a SinceVerifier: its median-time cache, plus an
instrumentation log of the oracle arguments actually queried (used to state
the cache claims; the source has no such log). -/
structure SinceState where
  cache : LruCache
  queries : List Nat
deriving Repr, DecidableEq

/-- SinceVerifier::new builds an empty cache whose capacity is the number of
resolved inputs. -/
def init_since_state (rtx : ResolvedTransaction) : SinceState :=
  ⟨⟨rtx.resolved_inputs.length, []⟩, []⟩

/-- SinceVerifier::block_median_time: consult the cache first, otherwise ask
the oracle and cache the answer (also when the answer is none). -/
def block_median_time (oracle : Nat → Option Nat) (n : Nat) (s : SinceState) :
    Option Nat × SinceState :=
  match s.cache.get n with
  | some r => (r, s)
  | none =>
    let timestamp := oracle n
    (timestamp, ⟨s.cache.insert n timestamp, s.queries ++ [n]⟩)

/-- SinceVerifier::verify_absolute_lock. -/
def verify_absolute_lock (oracle : Nat → Option Nat) (tip_number tip_epoch_number : Nat)
    (since : Nat) (s : SinceState) : Except TransactionError Unit × SinceState :=
  if Since.is_absolute since then
    match Since.extract_metric since with
    | some (.BlockNumber block_number) =>
      (if tip_number < block_number then .error .Immature else .ok (), s)
    | some (.EpochNumber epoch_number) =>
      (if tip_epoch_number < epoch_number then .error .Immature else .ok (), s)
    | some (.Timestamp timestamp) =>
      let r := block_median_time oracle (tip_number - 1) s
      let tip_timestamp := r.1.getD 0
      (if tip_timestamp < timestamp then .error .Immature else .ok (), r.2)
    | none => (.error .InvalidSince, s)
  else
    (.ok (), s)

/-- SinceVerifier::verify_relative_lock.  The u64 additions wrap modulo
2^64 in release builds. -/
def verify_relative_lock (oracle : Nat → Option Nat) (tip_number tip_epoch_number : Nat)
    (since : Nat) (cell_meta : CellMeta) (s : SinceState) :
    Except TransactionError Unit × SinceState :=
  if Since.is_relative since then
    match cell_meta.block_info with
    | none => (.error .Immature, s)
    | some block_info =>
      let cell_block_number := block_info.number
      let cell_epoch_number := block_info.epoch
      match Since.extract_metric since with
      | some (.BlockNumber block_number) =>
        (if tip_number < (cell_block_number + block_number) % U64 then
          .error .Immature else .ok (), s)
      | some (.EpochNumber epoch_number) =>
        (if tip_epoch_number < (cell_epoch_number + epoch_number) % U64 then
          .error .Immature else .ok (), s)
      | some (.Timestamp timestamp) =>
        let r1 := block_median_time oracle (tip_number - 1) s
        let tip_timestamp := r1.1.getD 0
        let r2 := block_median_time oracle (cell_block_number - 1) r1.2
        let median_timestamp := r2.1.getD 0
        (if tip_timestamp < (median_timestamp + timestamp) % U64 then
          .error .Immature else .ok (), r2.2)
      | none => (.error .InvalidSince, s)
  else
    (.ok (), s)

/-- One iteration of the loop in SinceVerifier::verify: skip unresolved
cells and zero since fields, then check flags, the absolute lock and the
relative lock. -/
def verify_since_input (oracle : Nat → Option Nat) (tip_number tip_epoch_number : Nat)
    (rop : ResolvedOutPoint) (input : CellInput) (s : SinceState) :
    Except TransactionError Unit × SinceState :=
  match rop.cell with
  | none => (.ok (), s)
  | some cell_meta =>
    if input.since = 0 then (.ok (), s)
    else if ! Since.flags_is_valid input.since then (.error .InvalidSince, s)
    else
      match verify_absolute_lock oracle tip_number tip_epoch_number input.since s with
      | (.error e, s1) => (.error e, s1)
      | (.ok _, s1) =>
        verify_relative_lock oracle tip_number tip_epoch_number input.since cell_meta s1

/-- The loop of SinceVerifier::verify over the zipped resolved inputs and
transaction inputs, stopping at the first failure. -/
def since_verify_loop (oracle : Nat → Option Nat) (tip_number tip_epoch_number : Nat) :
    List (ResolvedOutPoint × CellInput) → SinceState →
    Except TransactionError Unit × SinceState
  | [], s => (.ok (), s)
  | (rop, input) :: rest, s =>
    match verify_since_input oracle tip_number tip_epoch_number rop input s with
    | (.error e, s1) => (.error e, s1)
    | (.ok _, s1) => since_verify_loop oracle tip_number tip_epoch_number rest s1

/-- SinceVerifier::verify. -/
def since_verify (oracle : Nat → Option Nat) (tip_number tip_epoch_number : Nat)
    (rtx : ResolvedTransaction) (s : SinceState) :
    Except TransactionError Unit × SinceState :=
  since_verify_loop oracle tip_number tip_epoch_number
    (rtx.resolved_inputs.zip rtx.transaction.inputs) s

/-- ScriptVerifier::verify: delegate to the opaque engine and wrap its error
verbatim as ScriptFailure. -/
def script_verify (engine : Nat → Except Nat Nat) (max_cycles : Nat) :
    Except TransactionError Nat :=
  match engine max_cycles with
  | .ok cycles => .ok cycles
  | .error inner => .error (.ScriptFailure inner)

/-- TransactionVerifier::verify: the full orchestrator.  A fresh since
verifier (hence a fresh cache) is built per call, as in
TransactionVerifier::new.  none models an abort in the maturity checker. -/
def full_verify (rtx : ResolvedTransaction) (oracle : Nat → Option Nat)
    (tip_number tip_epoch_number cellbase_maturity : Nat)
    (engine : Nat → Except Nat Nat) (max_cycles : Nat) :
    Option (Except TransactionError Nat) :=
  match version_verify rtx.transaction with
  | .error e => some (.error e)
  | .ok _ =>
  match empty_verify rtx.transaction with
  | .error e => some (.error e)
  | .ok _ =>
  match maturity_verify rtx tip_number cellbase_maturity with
  | none => none
  | some (.error e) => some (.error e)
  | some (.ok _) =>
  match capacity_verify rtx with
  | .error e => some (.error e)
  | .ok _ =>
  match duplicate_deps_verify rtx.transaction with
  | .error e => some (.error e)
  | .ok _ =>
  match (since_verify oracle tip_number tip_epoch_number rtx (init_since_state rtx)).1 with
  | .error e => some (.error e)
  | .ok _ => some (script_verify engine max_cycles)

/-- The since value of the C3 failing input: an absolute timestamp lock
whose 56-bit value field is 2^56 - 1. -/
def c3_since : Nat := 0x40ffffffffffffff

/-- A committed non-cellbase cell for the C3 scenario. -/
def c3_cell : CellMeta := ⟨500, false, some ⟨10, 0⟩⟩

/-- An oracle answering exactly the wrapped product, exhibiting that the
lock is treated as already satisfied. -/
def c3_oracle : Nat → Option Nat := fun _ => some 16717361816799280152

/-- A fresh single-input cache state for the C3 scenario. -/
def c3_state : SinceState := ⟨⟨1, []⟩, []⟩

/-- The three valid metric kinds of the §3 bit layout. -/
inductive MetricKind where
  | blocks
  | epochs
  | timestamp
deriving Repr, DecidableEq

/-- The metric-type code of §3: 00 block number, 01 epoch number,
10 timestamp. -/
def metric_code : MetricKind → Nat
  | .blocks => 0
  | .epochs => 1
  | .timestamp => 2

/-- Encoding per the §3 bit layout: lock type in bit 63, metric code in
bits 62 and 61, value in bits 55 to 0, reserved bits zero. -/
def encode_since (lock_type : Bool) (metric : MetricKind) (value : Nat) : Nat :=
  (cond lock_type 1 0) * 2 ^ 63 + metric_code metric * 2 ^ 61 + value

/-- Decoding the §3 bit fields, using exactly the field extractions of the
source (the lock bit test of Since::is_relative, the metric discrimination
and the value mask of Since::extract_metric).  The seconds-to-milliseconds
conversion of extract_metric is a unit conversion, not part of the layout. -/
def decode_since (s : Nat) : Option (Bool × MetricKind × Nat) :=
  let value := s &&& VALUE_MASK
  let m := s &&& METRIC_TYPE_FLAG_MASK
  if m = 0x0000000000000000 then some (Since.is_relative s, .blocks, value)
  else if m = 0x2000000000000000 then some (Since.is_relative s, .epochs, value)
  else if m = 0x4000000000000000 then some (Since.is_relative s, .timestamp, value)
  else none

/-- The committed cells among resolved inputs and resolved deps, in the
order the maturity checker scans them. -/
def committed_cells (rtx : ResolvedTransaction) : List CellMeta :=
  (rtx.resolved_inputs ++ rtx.resolved_deps).filterMap ResolvedOutPoint.cell

/-- The resolved transaction used by the C9 witness: one committed
cellbase input produced at height 95, checked at tip 100 with maturity
window 10. -/
def c9w_rtx : ResolvedTransaction :=
  ⟨⟨0, [⟨0⟩], [⟨1, false⟩], [], false, false⟩, [some ⟨100, true, some ⟨95, 0⟩⟩], [], false⟩

/-- The non-script checks of the full orchestrator, in the order the spec
fixes; each entry is none when the check aborts, otherwise its outcome. -/
def ordered_checks (rtx : ResolvedTransaction) (oracle : Nat → Option Nat)
    (tip_number tip_epoch_number cellbase_maturity : Nat) :
    List (Option (Except TransactionError Unit)) :=
  [some (version_verify rtx.transaction),
   some (empty_verify rtx.transaction),
   maturity_verify rtx tip_number cellbase_maturity,
   some (capacity_verify rtx),
   some (duplicate_deps_verify rtx.transaction),
   some ((since_verify oracle tip_number tip_epoch_number rtx (init_since_state rtx)).1)]

/-- The earliest failing check of a list of check outcomes: none when a
check aborts first, some (some e) when a check fails first with e, and
some none when every check passes. -/
def first_outcome : List (Option (Except TransactionError Unit)) →
    Option (Option TransactionError)
  | [] => some none
  | none :: _ => none
  | some (.error e) :: _ => some (some e)
  | some (.ok _) :: rest => first_outcome rest

/-- The C2 counterexample transaction: wrong version and a capacity
shortfall at once. -/
def c2_rtx : ResolvedTransaction :=
  ⟨⟨1, [⟨0⟩], [⟨600, false⟩], [], false, false⟩, [some ⟨500, false, some ⟨1, 0⟩⟩], [], false⟩

/-- The C2 witness transaction: well-formed except for a 500 against 600
capacity shortfall. -/
def c2w_rtx : ResolvedTransaction :=
  ⟨⟨0, [⟨0⟩], [⟨600, false⟩], [], false, false⟩, [some ⟨500, false, some ⟨1, 0⟩⟩], [], false⟩

/-- The cache invariant threaded through C5: the oracle query log has no
repeats and logs exactly the cached keys. -/
def CacheInv (s : SinceState) : Prop :=
  s.queries.Nodup ∧ s.cache.keys.Nodup ∧ (∀ k, k ∈ s.queries ↔ k ∈ s.cache.keys)

/-- Two successive verify calls of one SinceVerifier instance, returning
the final cache state and query log. -/
def two_since_verifies (oracle : Nat → Option Nat) (tip tipE : Nat)
    (rtx : ResolvedTransaction) : SinceState :=
  (since_verify oracle tip tipE rtx
    (since_verify oracle tip tipE rtx (init_since_state rtx)).2).2

/-- The committed cell of the C5 counterexample, produced at height 10. -/
def c5_cell : CellMeta := ⟨500, false, some ⟨10, 0⟩⟩

/-- The C5 counterexample transaction: a single input under a relative
timestamp lock, so the cache capacity is one while two distinct block
numbers get queried. -/
def c5_rtx : ResolvedTransaction :=
  ⟨⟨0, [⟨0xc000000000000001⟩], [⟨100, false⟩], [], false, false⟩, [some c5_cell], [], false⟩

/-- A fixed oracle for the C5 scenarios. -/
def c5_oracle : Nat → Option Nat := fun n => if n = 4 then some 1000000 else some 1000

/-- The C5 witness transaction: two relative-timestamp inputs spending
cells from the same block, so the two distinct queried block numbers fit
the capacity-two cache. -/
def c5w_rtx : ResolvedTransaction :=
  ⟨⟨0, [⟨0xc000000000000001⟩, ⟨0xc000000000000001⟩], [⟨100, false⟩], [], false, false⟩,
    [some c5_cell, some c5_cell], [], false⟩

/-! ## Theorems -/

theorem and_two_pow_sub_one (x k : Nat) : x &&& (2 ^ k - 1) = x % 2 ^ k := by
  apply Nat.eq_of_testBit_eq
  intro i
  rw [Nat.testBit_land, Nat.testBit_two_pow_sub_one, Nat.testBit_mod_two_pow, Bool.and_comm]

theorem and_mask_shift (x m a : Nat) : x &&& m <<< a = (x >>> a &&& m) <<< a := by
  apply Nat.eq_of_testBit_eq
  intro i
  rw [Nat.testBit_land, Nat.testBit_shiftLeft, Nat.testBit_shiftLeft, Nat.testBit_land,
    Nat.testBit_shiftRight]
  by_cases h : a ≤ i
  · have hi : a + (i - a) = i := by omega
    simp [ge_iff_le, h, hi, Bool.and_left_comm, Bool.and_comm, Bool.and_assoc]
  · simp [ge_iff_le, h]

theorem and_field (x a k c : Nat) (hc : c = (2 ^ k - 1) <<< a) :
    x &&& c = x / 2 ^ a % 2 ^ k * 2 ^ a := by
  rw [hc, and_mask_shift, and_two_pow_sub_one, Nat.shiftRight_eq_div_pow, Nat.shiftLeft_eq]

theorem land_lock (x : Nat) : x &&& (1 <<< 63) = x / 9223372036854775808 % 2 * 9223372036854775808 := by
  have h := and_field x 63 1 (1 <<< 63) (by norm_num)
  norm_num at h
  exact h

theorem land_metric (x : Nat) :
    x &&& 0x6000000000000000 = x / 2305843009213693952 % 4 * 2305843009213693952 := by
  have h := and_field x 61 2 0x6000000000000000 (by rw [Nat.shiftLeft_eq]; norm_num)
  norm_num at h
  exact h

theorem land_remain (x : Nat) :
    x &&& 0x1f00000000000000 = x / 72057594037927936 % 32 * 72057594037927936 := by
  have h := and_field x 56 5 0x1f00000000000000 (by rw [Nat.shiftLeft_eq]; norm_num)
  norm_num at h
  exact h

theorem land_value (x : Nat) : x &&& 0x00ffffffffffffff = x % 72057594037927936 := by
  have h := and_two_pow_sub_one x 56
  norm_num at h
  exact h

/-- The two metric-type bits take exactly four values. -/
theorem metric_cases (s : Nat) :
    s &&& METRIC_TYPE_FLAG_MASK = 0 ∨ s &&& METRIC_TYPE_FLAG_MASK = 0x2000000000000000 ∨
    s &&& METRIC_TYPE_FLAG_MASK = 0x4000000000000000 ∨
    s &&& METRIC_TYPE_FLAG_MASK = 0x6000000000000000 := by
  unfold METRIC_TYPE_FLAG_MASK
  rw [land_metric]
  have h : s / 2305843009213693952 % 4 < 4 := Nat.mod_lt _ (by norm_num)
  omega

/-- Valid flags leave a decodable metric. -/
theorem extract_metric_ne_none (s : Nat) (h : Since.flags_is_valid s = true) :
    Since.extract_metric s ≠ none := by
  simp only [Since.flags_is_valid, Bool.and_eq_true, beq_iff_eq, bne_iff_ne, ne_eq] at h
  unfold Since.extract_metric
  rcases metric_cases s with hc | hc | hc | hc <;>
    · simp [hc]
      try omega

/-- An ite between Immature and ok can only report Immature. -/
theorem imm_of_ite (c : Prop) [inst : Decidable c] (e : TransactionError)
    (h : (if c then (Except.error TransactionError.Immature : Except TransactionError Unit)
      else Except.ok ()) = Except.error e) : e = TransactionError.Immature := by
  by_cases hc : c
  · rw [if_pos hc] at h
    cases h
    rfl
  · rw [if_neg hc] at h
    cases h

/-- The absolute branch only reports Immature, or InvalidSince when the
metric bits are the invalid code. -/
theorem verify_absolute_lock_err (o : Nat → Option Nat) (tip tipE since : Nat) (s : SinceState)
    (e : TransactionError)
    (h : (verify_absolute_lock o tip tipE since s).1 = .error e) :
    e = .Immature ∨ (e = .InvalidSince ∧ Since.extract_metric since = none) := by
  unfold verify_absolute_lock at h
  by_cases ha : Since.is_absolute since = true
  · rw [if_pos ha] at h
    rcases hm : Since.extract_metric since with _ | m
    · rw [hm] at h
      simp at h
      right; exact ⟨h.symm, rfl⟩
    · rcases m with v | v | v <;> rw [hm] at h <;> split at h <;> (try simp_all) <;>
        exact imm_of_ite _ e h
  · rw [if_neg ha] at h
    simp at h

/-- The relative branch only reports Immature, or InvalidSince when the
metric bits are the invalid code. -/
theorem verify_relative_lock_err (o : Nat → Option Nat) (tip tipE since : Nat) (cm : CellMeta)
    (s : SinceState) (e : TransactionError)
    (h : (verify_relative_lock o tip tipE since cm s).1 = .error e) :
    e = .Immature ∨ (e = .InvalidSince ∧ Since.extract_metric since = none) := by
  unfold verify_relative_lock at h
  by_cases hr : Since.is_relative since = true
  · rw [if_pos hr] at h
    rcases hb : cm.block_info with _ | bi
    · rw [hb] at h
      simp at h
      left
      exact h.symm
    · rw [hb] at h
      rcases hm : Since.extract_metric since with _ | m
      · rw [hm] at h
        simp at h
        right
        exact ⟨h.symm, rfl⟩
      · rcases m with v | v | v <;> rw [hm] at h <;> split at h <;> (try simp_all) <;>
          exact imm_of_ite _ e h
  · rw [if_neg hr] at h
    simp at h

/-- A single since-loop iteration only reports Immature or InvalidSince. -/
theorem verify_since_input_err (o : Nat → Option Nat) (tip tipE : Nat) (rop : ResolvedOutPoint)
    (inp : CellInput) (s : SinceState) (e : TransactionError)
    (h : (verify_since_input o tip tipE rop inp s).1 = .error e) :
    e = .Immature ∨ e = .InvalidSince := by
  unfold verify_since_input at h
  rcases rop with _ | cm
  · simp [ResolvedOutPoint.cell] at h
  · simp only [ResolvedOutPoint.cell] at h
    by_cases h0 : inp.since = 0
    · rw [if_pos h0] at h
      simp at h
    · rw [if_neg h0] at h
      by_cases hf : (! Since.flags_is_valid inp.since) = true
      · rw [if_pos hf] at h
        cases h
        right
        rfl
      · rw [if_neg hf] at h
        rcases hab : verify_absolute_lock o tip tipE inp.since s with ⟨rab, sab⟩
        rw [hab] at h
        rcases rab with eab | uab
        · cases h
          rcases verify_absolute_lock_err o tip tipE inp.since s _ (by rw [hab]) with h1 | h1
          · left; exact h1
          · right; exact h1.1
        · rcases verify_relative_lock_err o tip tipE inp.since cm sab _ h with h1 | h1
          · left; exact h1
          · right; exact h1.1

/-- The since loop only reports Immature or InvalidSince. -/
theorem since_verify_loop_err (o : Nat → Option Nat) (tip tipE : Nat)
    (l : List (ResolvedOutPoint × CellInput)) (s : SinceState) (e : TransactionError)
    (h : (since_verify_loop o tip tipE l s).1 = .error e) :
    e = .Immature ∨ e = .InvalidSince := by
  induction l generalizing s with
  | nil => simp [since_verify_loop] at h
  | cons x rest ih =>
    rcases x with ⟨rop, inp⟩
    unfold since_verify_loop at h
    rcases hi : verify_since_input o tip tipE rop inp s with ⟨ri, si⟩
    rw [hi] at h
    rcases ri with ei | ui
    · cases h
      exact verify_since_input_err o tip tipE rop inp s _ (by rw [hi])
    · exact ih si h

/-- Invalid flags characterized arithmetically. -/
theorem flags_is_valid_false_iff (x : Nat) :
    Since.flags_is_valid x = false ↔
      (x &&& REMAIN_FLAGS_BITS ≠ 0 ∨ x &&& METRIC_TYPE_FLAG_MASK = 0x6000000000000000) := by
  unfold Since.flags_is_valid
  rw [Bool.and_eq_false_iff]
  simp

/-- Claim C6: for a committed cell and a nonzero since field, the per-input
since check reports InvalidSince exactly when a reserved flag bit is set or
the metric-type bits hold the invalid code 11. -/
theorem since_invalid_flags_iff (o : Nat → Option Nat) (tip tipE : Nat) (cell : CellMeta)
    (inp : CellInput) (s : SinceState) (h : inp.since ≠ 0) :
    ((verify_since_input o tip tipE (some cell) inp s).1 = .error .InvalidSince ↔
      (inp.since &&& REMAIN_FLAGS_BITS ≠ 0 ∨
        inp.since &&& METRIC_TYPE_FLAG_MASK = 0x6000000000000000)) := by
  rw [← flags_is_valid_false_iff]
  unfold verify_since_input
  simp only [ResolvedOutPoint.cell]
  rw [if_neg h]
  by_cases hf : Since.flags_is_valid inp.since = true
  · rw [if_neg (by simp [hf])]
    have hnone := extract_metric_ne_none inp.since hf
    constructor
    · intro hres
      exfalso
      rcases hab : verify_absolute_lock o tip tipE inp.since s with ⟨rab, sab⟩
      rw [hab] at hres
      rcases rab with eab | uab
      · simp at hres
        rcases verify_absolute_lock_err o tip tipE inp.since s eab (by rw [hab]) with h1 | h1
        · rw [hres] at h1
          cases h1
        · exact hnone h1.2
      · simp only at hres
        rcases verify_relative_lock_err o tip tipE inp.since cell sab _ hres with h1 | h1
        · cases h1
        · exact hnone h1.2
    · intro hbad
      rw [hf] at hbad
      cases hbad
  · have hf2 : Since.flags_is_valid inp.since = false := by
      rw [Bool.eq_false_iff]
      exact hf
    rw [if_pos (by simp [hf2])]
    simp [hf2]

/-- Claim C8: a zero since field never causes the since check of that input
to fail, and an unresolved (mempool) input is skipped entirely; in both
cases the cache state is untouched. -/
theorem since_zero_and_unresolved_skipped (o : Nat → Option Nat) (tip tipE : Nat) :
    (∀ (cell : CellMeta) (inp : CellInput) (s : SinceState), inp.since = 0 →
      verify_since_input o tip tipE (some cell) inp s = (.ok (), s))
    ∧ (∀ (inp : CellInput) (s : SinceState),
      verify_since_input o tip tipE none inp s = (.ok (), s)) := by
  constructor
  · intro cell inp s h0
    unfold verify_since_input
    simp [ResolvedOutPoint.cell, h0]
  · intro inp s
    unfold verify_since_input
    simp [ResolvedOutPoint.cell]

/-- Witness for C8 at concrete inputs. -/
theorem since_zero_and_unresolved_skipped_witness :
    verify_since_input (fun _ => some 3) 7 7 (some ⟨500, false, some ⟨1, 1⟩⟩) ⟨0⟩ ⟨⟨1, []⟩, []⟩
        = (.ok (), ⟨⟨1, []⟩, []⟩)
    ∧ verify_since_input (fun _ => some 3) 7 7 none ⟨77⟩ ⟨⟨1, []⟩, []⟩ = (.ok (), ⟨⟨1, []⟩, []⟩) :=
  ⟨(since_zero_and_unresolved_skipped (fun _ => some 3) 7 7).1 ⟨500, false, some ⟨1, 1⟩⟩ ⟨0⟩ _ rfl,
    (since_zero_and_unresolved_skipped (fun _ => some 3) 7 7).2 ⟨77⟩ _⟩

/-- Claim C3 exhibit: the since value is in the 56-bit range and its flags
are valid, the seconds-to-milliseconds conversion overflows u64, and the
since check nevertheless accepts the input instead of reporting
InvalidSince: the product wrapped modulo 2^64. -/
theorem since_timestamp_mul_overflow_wraps :
    c3_since &&& VALUE_MASK < 2 ^ 56
    ∧ 2 ^ 64 ≤ (c3_since &&& VALUE_MASK) * 1000
    ∧ Since.flags_is_valid c3_since = true
    ∧ (verify_since_input c3_oracle 1 0 (some c3_cell) ⟨c3_since⟩ c3_state).1 = .ok () := by
  refine ⟨by decide, by decide, by decide, by decide⟩

/-- Decoding agrees with Since::extract_metric up to the millisecond unit
conversion, grounding decode_since in the source. -/
theorem extract_metric_eq_decode (s : Nat) :
    Since.extract_metric s =
      (decode_since s).map (fun t =>
        match t.2.1 with
        | .blocks => .BlockNumber t.2.2
        | .epochs => .EpochNumber t.2.2
        | .timestamp => .Timestamp (t.2.2 * 1000 % U64)) := by
  unfold Since.extract_metric decode_since
  dsimp only
  split_ifs <;> rfl

/-- Claim C4: the §3 encoding of any in-range triple decodes to the same
triple. -/
theorem since_encode_decode_roundtrip (lock : Bool) (m : MetricKind) (v : Nat)
    (hv : v < 2 ^ 56) :
    decode_since (encode_since lock m v) = some (lock, m, v) := by
  have hv2 : v < 72057594037927936 := by
    norm_num at hv
    exact hv
  have hL : (cond lock 1 0) ≤ 1 := by cases lock <;> simp
  have hM : metric_code m ≤ 2 := by cases m <;> simp [metric_code]
  have e63 : (2 : Nat) ^ 63 = 9223372036854775808 := by norm_num
  have e61 : (2 : Nat) ^ 61 = 2305843009213693952 := by norm_num
  have h2 : encode_since lock m v &&& METRIC_TYPE_FLAG_MASK =
      metric_code m * 2305843009213693952 := by
    unfold METRIC_TYPE_FLAG_MASK
    rw [land_metric]
    unfold encode_since
    rw [e63, e61]
    omega
  have h1 : encode_since lock m v &&& VALUE_MASK = v := by
    unfold VALUE_MASK
    rw [land_value]
    unfold encode_since
    rw [e63, e61]
    omega
  have h3 : Since.is_relative (encode_since lock m v) = lock := by
    unfold Since.is_relative Since.is_absolute LOCK_TYPE_FLAG
    rw [land_lock]
    unfold encode_since
    rw [e63, e61]
    cases lock <;> simp <;> omega
  cases m <;>
    simp only [decode_since, h1, h2, h3, metric_code] <;>
    norm_num

/-- Witness for C4 at a concrete triple. -/
theorem since_encode_decode_roundtrip_witness :
    decode_since (encode_since true MetricKind.epochs 5) = some (true, MetricKind.epochs, 5) :=
  since_encode_decode_roundtrip true MetricKind.epochs 5 (by norm_num)

/-- The any_opt scan finds no hit exactly when the predicate is false everywhere. -/
theorem any_opt_eq_false_iff (p : α → Option Bool) (l : List α) :
    (any_opt p l = some false ↔ ∀ x ∈ l, p x = some false) := by
  induction l with
  | nil => simp [any_opt]
  | cons x xs ih =>
    rcases hp : p x with _ | b
    · simp [any_opt, hp]
    · rcases b with _ | _
      · simp [any_opt, hp, ih]
      · simp [any_opt, hp]

/-- With an abort-free predicate, any_opt finds a hit exactly when one
exists. -/
theorem any_opt_eq_true_iff (p : α → Option Bool) (l : List α)
    (h : ∀ x ∈ l, p x ≠ none) :
    (any_opt p l = some true ↔ ∃ x ∈ l, p x = some true) := by
  induction l with
  | nil => simp [any_opt]
  | cons x xs ih =>
    have hx := h x (by simp)
    have hxs : ∀ y ∈ xs, p y ≠ none := fun y hy => h y (by simp [hy])
    rcases hp : p x with _ | b
    · exact absurd hp hx
    · rcases b with _ | _
      · simp [any_opt, hp, ih hxs]
      · simp [any_opt, hp]

/-- A hit found by any_opt is real (no hypotheses needed). -/
theorem any_opt_eq_true_imp (p : α → Option Bool) (l : List α)
    (h : any_opt p l = some true) : ∃ x ∈ l, p x = some true := by
  induction l with
  | nil => simp [any_opt] at h
  | cons x xs ih =>
    unfold any_opt at h
    rcases hp : p x with _ | b
    · rw [hp] at h
      cases h
    · rcases b with _ | _
      · rw [hp] at h
        rcases ih h with ⟨y, hy, hpy⟩
        exact ⟨y, by simp [hy], hpy⟩
      · exact ⟨x, by simp, hp⟩

/-- With no hit available, any_opt aborts exactly when the predicate aborts
somewhere. -/
theorem any_opt_eq_none_iff (p : α → Option Bool) (l : List α)
    (h : ∀ x ∈ l, p x ≠ some true) :
    (any_opt p l = none ↔ ∃ x ∈ l, p x = none) := by
  induction l with
  | nil => simp [any_opt]
  | cons x xs ih =>
    have hx := h x (by simp)
    have hxs : ∀ y ∈ xs, p y ≠ some true := fun y hy => h y (by simp [hy])
    rcases hp : p x with _ | b
    · simp [any_opt, hp]
    · rcases b with _ | _
      · simp [any_opt, hp, ih hxs]
      · exact absurd hp hx

/-- An abort-free predicate keeps any_opt abort-free. -/
theorem any_opt_ne_none (p : α → Option Bool) (l : List α)
    (h : ∀ x ∈ l, p x ≠ none) : any_opt p l ≠ none := by
  induction l with
  | nil => simp [any_opt]
  | cons x xs ih =>
    have hx := h x (by simp)
    have hxs : ∀ y ∈ xs, p y ≠ none := fun y hy => h y (by simp [hy])
    rcases hp : p x with _ | b
    · exact absurd hp hx
    · rcases b with _ | _
      · simp [any_opt, hp]
        exact ih hxs
      · simp [any_opt, hp]

/-- The cellbase_immature predicate aborts exactly on a cellbase cell
without block info. -/
theorem cellbase_immature_eq_none_iff (tip mat : Nat) (c : CellMeta) :
    (cellbase_immature tip mat c = none ↔ c.is_cellbase = true ∧ c.block_info = none) := by
  unfold cellbase_immature
  rcases hcb : c.is_cellbase <;> rcases hbi : c.block_info with _ | bi <;> simp [hcb, hbi]

/-- The cellbase_immature predicate triggers exactly on an immature cellbase
cell; the wrapped addition coincides with the plain one in range. -/
theorem cellbase_immature_eq_true_iff (tip mat : Nat) (c : CellMeta)
    (hr : ∀ bi, c.block_info = some bi → bi.number + mat < U64) :
    (cellbase_immature tip mat c = some true ↔
      c.is_cellbase = true ∧ ∃ bi, c.block_info = some bi ∧ tip < bi.number + mat) := by
  unfold cellbase_immature
  rcases hcb : c.is_cellbase <;> rcases hbi : c.block_info with _ | bi <;> simp [hcb, hbi]
  rw [Nat.mod_eq_of_lt (hr bi hbi)]

/-- Claim C9: with block info present wherever a committed cellbase cell
occurs (and in-range additions), the maturity checker fails with
CellbaseImmaturity exactly when some committed cell among resolved inputs
and deps is an immature cellbase; a committed cellbase cell without block
info forbids silent success, and aborts the checker when no immature cell
short-circuits first. -/
theorem maturity_verify_characterization (rtx : ResolvedTransaction) (tip mat : Nat) :
    ((∀ c ∈ committed_cells rtx, c.is_cellbase = true → c.block_info ≠ none) →
      (∀ c ∈ committed_cells rtx, ∀ bi, c.block_info = some bi → bi.number + mat < U64) →
      (maturity_verify rtx tip mat = some (.error .CellbaseImmaturity) ↔
        ∃ c ∈ committed_cells rtx, c.is_cellbase = true ∧
          ∃ bi, c.block_info = some bi ∧ tip < bi.number + mat))
    ∧ ((∃ c ∈ committed_cells rtx, c.is_cellbase = true ∧ c.block_info = none) →
        maturity_verify rtx tip mat ≠ some (.ok ()))
    ∧ ((∃ c ∈ committed_cells rtx, c.is_cellbase = true ∧ c.block_info = none) →
        (∀ c ∈ committed_cells rtx, cellbase_immature tip mat c ≠ some true) →
        maturity_verify rtx tip mat = none) := by
  have hsplit : committed_cells rtx =
      rtx.resolved_inputs.filterMap ResolvedOutPoint.cell ++
        rtx.resolved_deps.filterMap ResolvedOutPoint.cell := by
    unfold committed_cells
    exact List.filterMap_append _ _ _
  have hmemA : ∀ c ∈ rtx.resolved_inputs.filterMap ResolvedOutPoint.cell,
      c ∈ committed_cells rtx := by
    intro c hc
    rw [hsplit]
    exact List.mem_append_left _ hc
  have hmemB : ∀ c ∈ rtx.resolved_deps.filterMap ResolvedOutPoint.cell,
      c ∈ committed_cells rtx := by
    intro c hc
    rw [hsplit]
    exact List.mem_append_right _ hc
  refine ⟨?_, ?_, ?_⟩
  · intro hinfo hrange
    have hne : ∀ c ∈ committed_cells rtx, cellbase_immature tip mat c ≠ none := by
      intro c hc hnone
      rw [cellbase_immature_eq_none_iff] at hnone
      exact (hinfo c hc hnone.1) hnone.2
    have htrig : ∀ c ∈ committed_cells rtx, (cellbase_immature tip mat c = some true ↔
        c.is_cellbase = true ∧ ∃ bi, c.block_info = some bi ∧ tip < bi.number + mat) :=
      fun c hc => cellbase_immature_eq_true_iff tip mat c (hrange c hc)
    have hneA := fun c hc => hne c (hmemA c hc)
    have hneB := fun c hc => hne c (hmemB c hc)
    unfold maturity_verify
    rcases hA : any_opt (cellbase_immature tip mat)
        (rtx.resolved_inputs.filterMap ResolvedOutPoint.cell) with _ | bA
    · exact absurd hA (any_opt_ne_none _ _ hneA)
    · rcases bA with _ | _
      · rcases hB : any_opt (cellbase_immature tip mat)
            (rtx.resolved_deps.filterMap ResolvedOutPoint.cell) with _ | bB
        · exact absurd hB (any_opt_ne_none _ _ hneB)
        · rcases bB with _ | _
          · simp only
            constructor
            · intro hcontra
              simp at hcontra
            · rintro ⟨c, hc, hcb, bi, hbi, hlt⟩
              exfalso
              have hct : cellbase_immature tip mat c = some true :=
                (htrig c hc).mpr ⟨hcb, bi, hbi, hlt⟩
              rw [hsplit, List.mem_append] at hc
              rcases hc with hc | hc
              · rw [(any_opt_eq_false_iff _ _).mp hA c hc] at hct
                cases hct
              · rw [(any_opt_eq_false_iff _ _).mp hB c hc] at hct
                cases hct
          · simp only
            constructor
            · intro _
              rcases any_opt_eq_true_imp _ _ hB with ⟨c, hc, hct⟩
              rcases (htrig c (hmemB c hc)).mp hct with ⟨hcb, bi, hbi, hlt⟩
              exact ⟨c, hmemB c hc, hcb, bi, hbi, hlt⟩
            · intro _
              trivial
      · simp only
        constructor
        · intro _
          rcases any_opt_eq_true_imp _ _ hA with ⟨c, hc, hct⟩
          rcases (htrig c (hmemA c hc)).mp hct with ⟨hcb, bi, hbi, hlt⟩
          exact ⟨c, hmemA c hc, hcb, bi, hbi, hlt⟩
        · intro _
          trivial
  · rintro ⟨c, hc, hcb, hbi⟩ hok
    have hnone : cellbase_immature tip mat c = none :=
      (cellbase_immature_eq_none_iff tip mat c).mpr ⟨hcb, hbi⟩
    unfold maturity_verify at hok
    rcases hA : any_opt (cellbase_immature tip mat)
        (rtx.resolved_inputs.filterMap ResolvedOutPoint.cell) with _ | bA <;> rw [hA] at hok
    · cases hok
    · rcases bA with _ | _
      · rcases hB : any_opt (cellbase_immature tip mat)
            (rtx.resolved_deps.filterMap ResolvedOutPoint.cell) with _ | bB <;> rw [hB] at hok
        · cases hok
        · rcases bB with _ | _
          · rw [hsplit, List.mem_append] at hc
            rcases hc with hc | hc
            · rw [(any_opt_eq_false_iff _ _).mp hA c hc] at hnone
              cases hnone
            · rw [(any_opt_eq_false_iff _ _).mp hB c hc] at hnone
              cases hnone
          · simp at hok
      · simp at hok
  · rintro ⟨c, hc, hcb, hbi⟩ hnotrig
    have hnone : cellbase_immature tip mat c = none :=
      (cellbase_immature_eq_none_iff tip mat c).mpr ⟨hcb, hbi⟩
    have hntA : ∀ x ∈ rtx.resolved_inputs.filterMap ResolvedOutPoint.cell,
        cellbase_immature tip mat x ≠ some true := fun x hx => hnotrig x (hmemA x hx)
    have hntB : ∀ x ∈ rtx.resolved_deps.filterMap ResolvedOutPoint.cell,
        cellbase_immature tip mat x ≠ some true := fun x hx => hnotrig x (hmemB x hx)
    unfold maturity_verify
    rw [hsplit, List.mem_append] at hc
    rcases hc with hc | hc
    · rw [(any_opt_eq_none_iff _ _ hntA).mpr ⟨c, hc, hnone⟩]
    · rcases hA : any_opt (cellbase_immature tip mat)
          (rtx.resolved_inputs.filterMap ResolvedOutPoint.cell) with _ | bA
      · rfl
      · rcases bA with _ | _
        · rw [(any_opt_eq_none_iff _ _ hntB).mpr ⟨c, hc, hnone⟩]
        · exact absurd hA (by
            intro hA2
            rcases any_opt_eq_true_imp _ _ hA2 with ⟨y, hy, hyt⟩
            exact hntA y hy hyt)

/-- Witness for C9 at a concrete immature cellbase input. -/
theorem maturity_verify_characterization_witness :
    maturity_verify c9w_rtx 100 10 = some (.error .CellbaseImmaturity) := by
  refine ((maturity_verify_characterization c9w_rtx 100 10).1 ?_ ?_).mpr ?_
  · intro c hc hcb
    simp [committed_cells, c9w_rtx, ResolvedOutPoint.cell] at hc
    subst hc
    simp
  · intro c hc bi hbi
    simp [committed_cells, c9w_rtx, ResolvedOutPoint.cell] at hc
    subst hc
    simp at hbi
    rw [← hbi]
    norm_num [U64]
  · exact ⟨⟨100, true, some ⟨95, 0⟩⟩,
      by simp [committed_cells, c9w_rtx, ResolvedOutPoint.cell], rfl, ⟨95, 0⟩, rfl, by norm_num⟩

/-- Under neither exemption and with both sums defined, the capacity
checker is the sum comparison followed by the occupied-capacity scan. -/
theorem capacity_verify_nonexempt (rtx : ResolvedTransaction) (si so : Nat)
    (hcb : rtx.is_cellbase = false) (hdao : rtx.transaction.is_withdrawing_from_dao = false)
    (hsi : sum_capacities (rtx.resolved_inputs.map input_capacity) = some si)
    (hso : sum_capacities (rtx.transaction.outputs.map CellOutput.capacity) = some so) :
    capacity_verify rtx =
      if si < so then .error .OutputsSumOverflow
      else if rtx.transaction.outputs.any CellOutput.is_occupied_capacity_overflow then
        .error .CapacityOverflow
      else .ok () := by
  unfold capacity_verify
  rw [hcb, hdao, hsi, hso]
  by_cases h : si < so <;> simp [h]

/-- Claim C7: for a cellbase or DAO-withdrawing transaction the sum
comparison is skipped entirely: the capacity checker can only fail with
CapacityOverflow, from an occupied-capacity overflow on some output. -/
theorem capacity_cellbase_exemption (rtx : ResolvedTransaction)
    (h : rtx.is_cellbase = true ∨ rtx.transaction.is_withdrawing_from_dao = true) :
    capacity_verify rtx =
      if rtx.transaction.outputs.any CellOutput.is_occupied_capacity_overflow then
        .error .CapacityOverflow
      else .ok () := by
  unfold capacity_verify
  rcases h with h | h <;> rw [h] <;> simp

/-- Witness for C7: a cellbase transaction with outputs exceeding inputs
still passes the capacity checker. -/
theorem capacity_cellbase_exemption_witness :
    capacity_verify ⟨⟨0, [⟨0⟩], [⟨1000000, false⟩], [], false, false⟩, [none], [], true⟩
      = .ok () := by
  rw [capacity_cellbase_exemption ⟨⟨0, [⟨0⟩], [⟨1000000, false⟩], [], false, false⟩, [none], [], true⟩ (Or.inl rfl)]
  decide

/-- Claim C10: under neither exemption, when the committed-input sum falls
short and some output also overflows its occupied capacity, the sum
comparison wins: the checker reports OutputsSumOverflow, not
CapacityOverflow. -/
theorem capacity_sum_check_precedes_occupied (rtx : ResolvedTransaction) (si so : Nat)
    (hcb : rtx.is_cellbase = false) (hdao : rtx.transaction.is_withdrawing_from_dao = false)
    (hsi : sum_capacities (rtx.resolved_inputs.map input_capacity) = some si)
    (hso : sum_capacities (rtx.transaction.outputs.map CellOutput.capacity) = some so)
    (hlt : si < so)
    (_hocc : rtx.transaction.outputs.any CellOutput.is_occupied_capacity_overflow = true) :
    capacity_verify rtx = .error .OutputsSumOverflow := by
  rw [capacity_verify_nonexempt rtx si so hcb hdao hsi hso]
  simp [hlt]

/-- Witness for C10 at a concrete transaction. -/
theorem capacity_sum_check_precedes_occupied_witness :
    capacity_verify ⟨⟨0, [⟨0⟩], [⟨600, true⟩], [], false, false⟩,
        [some ⟨500, false, some ⟨1, 0⟩⟩], [], false⟩ = .error .OutputsSumOverflow :=
  capacity_sum_check_precedes_occupied
    ⟨⟨0, [⟨0⟩], [⟨600, true⟩], [], false, false⟩, [some ⟨500, false, some ⟨1, 0⟩⟩], [], false⟩
    500 600 rfl rfl (by decide) (by decide) (by norm_num) rfl

/-- The since verifier only reports Immature or InvalidSince. -/
theorem since_verify_err (o : Nat → Option Nat) (tip tipE : Nat) (rtx : ResolvedTransaction)
    (s : SinceState) (e : TransactionError)
    (h : (since_verify o tip tipE rtx s).1 = .error e) :
    e = .Immature ∨ e = .InvalidSince :=
  since_verify_loop_err o tip tipE _ s e h

/-- Claim C1: full verification runs version, empty, maturity, capacity,
duplicate-deps, since, script in this order; the reported error is the one
of the earliest failing check, and when every check passes the script
engine result (its cycle count on success) is returned. -/
theorem full_verify_reports_earliest_failure (rtx : ResolvedTransaction)
    (oracle : Nat → Option Nat) (tip_number tip_epoch_number cellbase_maturity : Nat)
    (engine : Nat → Except Nat Nat) (max_cycles : Nat) :
    full_verify rtx oracle tip_number tip_epoch_number cellbase_maturity engine max_cycles =
      match first_outcome (ordered_checks rtx oracle tip_number tip_epoch_number
          cellbase_maturity) with
      | none => none
      | some (some e) => some (.error e)
      | some none => some (script_verify engine max_cycles) := by
  unfold full_verify ordered_checks
  rcases version_verify rtx.transaction with e | u
  · rfl
  · rcases empty_verify rtx.transaction with e | u
    · rfl
    · rcases maturity_verify rtx tip_number cellbase_maturity with _ | r
      · rfl
      · rcases r with e | u
        · rfl
        · rcases capacity_verify rtx with e | u
          · rfl
          · rcases duplicate_deps_verify rtx.transaction with e | u
            · rfl
            · rcases (since_verify oracle tip_number tip_epoch_number rtx
                  (init_since_state rtx)).1 with e | u
              · rfl
              · rfl

/-- The duplicate-deps checker has exactly two outcomes. -/
theorem duplicate_deps_verify_cases (t : Transaction) :
    duplicate_deps_verify t = .ok () ∨ duplicate_deps_verify t = .error .DuplicateDeps := by
  unfold duplicate_deps_verify
  split <;> simp

/-- Counterexample to C2 as stated: a non-exempt transaction with defined
sums and a shortfall for which full verification reports Version, not
OutputsSumOverflow, because the version check fails first. -/
theorem capacity_claim_counterexample :
    sum_capacities (c2_rtx.resolved_inputs.map input_capacity) = some 500
    ∧ sum_capacities (c2_rtx.transaction.outputs.map CellOutput.capacity) = some 600
    ∧ c2_rtx.is_cellbase = false
    ∧ c2_rtx.transaction.is_withdrawing_from_dao = false
    ∧ ¬ (full_verify c2_rtx (fun _ => some 0) 10 10 10 (fun _ => .ok 7) 100
          = some (.error .OutputsSumOverflow) ↔ 500 < 600) := by
  refine ⟨by decide, by decide, rfl, rfl, ?_⟩
  intro h
  have h1 := h.mpr (by norm_num)
  have h2 : full_verify c2_rtx (fun _ => some 0) 10 10 10 (fun _ => .ok 7) 100
      = some (.error .Version) := by decide
  rw [h2] at h1
  simp at h1

/-- Claim C2, amended: provided the version, empty and maturity checks
pass, a non-exempt transaction with defined capacity sums fails full
verification with OutputsSumOverflow exactly when the committed-input sum
falls short of the output sum. -/
theorem full_verify_outputs_sum_overflow_iff (rtx : ResolvedTransaction)
    (oracle : Nat → Option Nat) (tip tipE mat : Nat) (engine : Nat → Except Nat Nat)
    (mc si so : Nat)
    (hv : version_verify rtx.transaction = .ok ())
    (he : empty_verify rtx.transaction = .ok ())
    (hm : maturity_verify rtx tip mat = some (.ok ()))
    (hcb : rtx.is_cellbase = false)
    (hdao : rtx.transaction.is_withdrawing_from_dao = false)
    (hsi : sum_capacities (rtx.resolved_inputs.map input_capacity) = some si)
    (hso : sum_capacities (rtx.transaction.outputs.map CellOutput.capacity) = some so) :
    (full_verify rtx oracle tip tipE mat engine mc = some (.error .OutputsSumOverflow)
      ↔ si < so) := by
  unfold full_verify
  rw [hv, he, hm, capacity_verify_nonexempt rtx si so hcb hdao hsi hso]
  by_cases hlt : si < so
  · simp [hlt]
  · simp only [if_neg hlt]
    constructor
    · intro hcontra
      exfalso
      revert hcontra
      by_cases hocc : rtx.transaction.outputs.any CellOutput.is_occupied_capacity_overflow = true
      · simp [hocc]
      · simp only [Bool.not_eq_true] at hocc
        simp only [hocc]
        rcases duplicate_deps_verify_cases rtx.transaction with hd | hd <;> rw [hd]
        · rcases hs : (since_verify oracle tip tipE rtx (init_since_state rtx)).1 with e | u
          · rcases since_verify_err oracle tip tipE rtx (init_since_state rtx) e hs
              with h1 | h1 <;> rw [h1] <;> simp
          · unfold script_verify
            rcases engine mc with i | c <;> simp
        · simp
    · intro hcontra
      exact absurd hcontra hlt

/-- Witness for the amended C2 at a concrete shortfall. -/
theorem full_verify_outputs_sum_overflow_iff_witness :
    full_verify c2w_rtx (fun _ => some 0) 10 10 10 (fun _ => .ok 7) 100
      = some (.error .OutputsSumOverflow) :=
  (full_verify_outputs_sum_overflow_iff c2w_rtx (fun _ => some 0) 10 10 10 (fun _ => .ok 7)
    100 500 600 rfl rfl (by decide) rfl rfl (by decide) (by decide)).mpr (by norm_num)

/-- Witness for C6 at a concrete reserved-bit violation. -/
theorem since_invalid_flags_iff_witness :
    (verify_since_input (fun _ => some 0) 0 0 (some ⟨1, false, some ⟨1, 0⟩⟩)
      ⟨0x0100000000000000⟩ ⟨⟨1, []⟩, []⟩).1 = .error .InvalidSince :=
  (since_invalid_flags_iff (fun _ => some 0) 0 0 ⟨1, false, some ⟨1, 0⟩⟩
    ⟨0x0100000000000000⟩ ⟨⟨1, []⟩, []⟩ (by norm_num)).mpr (Or.inl (by decide))

/-- A get miss means the key is not cached. -/
theorem get_eq_none_iff (c : LruCache) (n : Nat) :
    (c.get n = none ↔ n ∉ c.keys) := by
  unfold LruCache.get LruCache.keys
  rw [Option.map_eq_none', List.find?_eq_none]
  constructor
  · intro h hmem
    rcases List.mem_map.mp hmem with ⟨e, he, hfst⟩
    have h2 := h e he
    simp only [beq_iff_eq] at h2
    exact h2 hfst
  · intro h e he
    simp only [beq_iff_eq]
    intro hfst
    exact h (List.mem_map.mpr ⟨e, he, hfst⟩)

/-- Inserting a fresh key into a cache with free room prepends it. -/
theorem insert_keys_fresh (c : LruCache) (k : Nat) (v : Option Nat)
    (hk : k ∉ c.keys) (hlen : c.entries.length < c.capacity) :
    (c.insert k v).keys = k :: c.keys := by
  unfold LruCache.insert LruCache.keys
  have hfil : c.entries.filter (fun e => e.1 ≠ k) = c.entries := by
    rw [List.filter_eq_self]
    intro e he
    simp only [ne_eq, decide_eq_true_eq]
    intro hfst
    exact hk (List.mem_map.mpr ⟨e, he, hfst⟩)
  rw [hfil, List.take_of_length_le (by simpa using hlen)]
  rfl

/-- Two nodup lists with the same members have the same length. -/
theorem length_eq_of_nodup_ext (l1 l2 : List Nat) (h1 : l1.Nodup) (h2 : l2.Nodup)
    (h : ∀ a, a ∈ l1 ↔ a ∈ l2) : l1.length = l2.length :=
  ((List.perm_ext_iff_of_nodup h1 h2).mpr h).length_eq

/-- Prefixes only lose distinct elements. -/
theorem card_mono_of_append (q t : List Nat) :
    q.toFinset.card ≤ (q ++ t).toFinset.card := by
  rw [List.toFinset_append]
  exact Finset.card_le_card Finset.subset_union_left

/-- The median-time lookup keeps the cache capacity. -/
theorem bmt_cap (o : Nat → Option Nat) (n : Nat) (s : SinceState) :
    (block_median_time o n s).2.cache.capacity = s.cache.capacity := by
  unfold block_median_time
  rcases s.cache.get n with _ | r
  · rfl
  · rfl

/-- The median-time lookup only appends to the query log. -/
theorem bmt_append (o : Nat → Option Nat) (n : Nat) (s : SinceState) :
    ∃ t, (block_median_time o n s).2.queries = s.queries ++ t := by
  unfold block_median_time
  rcases s.cache.get n with _ | r
  · exact ⟨[n], rfl⟩
  · exact ⟨[], by simp⟩

/-- The median-time lookup preserves the invariant while the distinct
queries fit in the cache. -/
theorem bmt_inv (o : Nat → Option Nat) (n : Nat) (s : SinceState) (h : CacheInv s)
    (hb : (block_median_time o n s).2.queries.toFinset.card ≤ s.cache.capacity) :
    CacheInv (block_median_time o n s).2 := by
  rcases h with ⟨hq, hk, hiff⟩
  unfold block_median_time
  unfold block_median_time at hb
  rcases hg : s.cache.get n with _ | r
  · rw [hg] at hb
    have hnotk : n ∉ s.cache.keys := (get_eq_none_iff s.cache n).mp hg
    have hnotq : n ∉ s.queries := fun hmem => hnotk ((hiff n).mp hmem)
    have hq2 : (s.queries ++ [n]).Nodup := by
      rw [List.nodup_append]
      exact ⟨hq, List.nodup_singleton n, by simpa using hnotq⟩
    have hlen : s.cache.entries.length < s.cache.capacity := by
      have hkeys : s.cache.entries.length = s.cache.keys.length := by
        unfold LruCache.keys
        rw [List.length_map]
      have hql : s.queries.length = s.cache.keys.length :=
        length_eq_of_nodup_ext _ _ hq hk hiff
      have hcard : (s.queries ++ [n]).toFinset.card = s.queries.length + 1 := by
        rw [List.toFinset_card_of_nodup hq2, List.length_append, List.length_singleton]
      simp only at hb
      rw [hcard] at hb
      omega
    have hkeys2 : (s.cache.insert n (o n)).keys = n :: s.cache.keys :=
      insert_keys_fresh s.cache n (o n) hnotk hlen
    refine ⟨hq2, ?_, ?_⟩
    · rw [hkeys2]
      exact List.nodup_cons.mpr ⟨hnotk, hk⟩
    · intro k
      rw [hkeys2]
      simp only [List.mem_append, List.mem_singleton, List.mem_cons]
      rw [hiff k]
      tauto
  · exact ⟨hq, hk, hiff⟩

/-- The absolute branch keeps the capacity. -/
theorem abs_cap (o : Nat → Option Nat) (tip tipE since : Nat) (s : SinceState) :
    (verify_absolute_lock o tip tipE since s).2.cache.capacity = s.cache.capacity := by
  unfold verify_absolute_lock
  by_cases ha : Since.is_absolute since = true
  · rw [if_pos ha]
    rcases Since.extract_metric since with _ | m
    · rfl
    · rcases m with v | v | v
      · rfl
      · rfl
      · exact bmt_cap o (tip - 1) s
  · rw [if_neg ha]

/-- The absolute branch only appends to the query log. -/
theorem abs_append (o : Nat → Option Nat) (tip tipE since : Nat) (s : SinceState) :
    ∃ t, (verify_absolute_lock o tip tipE since s).2.queries = s.queries ++ t := by
  unfold verify_absolute_lock
  by_cases ha : Since.is_absolute since = true
  · rw [if_pos ha]
    rcases Since.extract_metric since with _ | m
    · exact ⟨[], by simp⟩
    · rcases m with v | v | v
      · exact ⟨[], by simp⟩
      · exact ⟨[], by simp⟩
      · exact bmt_append o (tip - 1) s
  · rw [if_neg ha]
    exact ⟨[], by simp⟩

/-- The absolute branch preserves the invariant under the capacity
bound. -/
theorem abs_inv (o : Nat → Option Nat) (tip tipE since : Nat) (s : SinceState)
    (h : CacheInv s)
    (hb : (verify_absolute_lock o tip tipE since s).2.queries.toFinset.card ≤
      s.cache.capacity) :
    CacheInv (verify_absolute_lock o tip tipE since s).2 := by
  revert hb
  unfold verify_absolute_lock
  by_cases ha : Since.is_absolute since = true
  · rw [if_pos ha]
    rcases Since.extract_metric since with _ | m
    · intro hb
      exact h
    · rcases m with v | v | v
      · intro hb
        exact h
      · intro hb
        exact h
      · intro hb
        exact bmt_inv o (tip - 1) s h hb
  · rw [if_neg ha]
    intro hb
    exact h

/-- The relative branch keeps the capacity. -/
theorem rel_cap (o : Nat → Option Nat) (tip tipE since : Nat) (cm : CellMeta)
    (s : SinceState) :
    (verify_relative_lock o tip tipE since cm s).2.cache.capacity = s.cache.capacity := by
  unfold verify_relative_lock
  by_cases hr : Since.is_relative since = true
  · rw [if_pos hr]
    rcases cm.block_info with _ | bi
    · rfl
    · rcases Since.extract_metric since with _ | m
      · rfl
      · rcases m with v | v | v
        · rfl
        · rfl
        · rw [bmt_cap, bmt_cap]
  · rw [if_neg hr]

/-- The relative branch only appends to the query log. -/
theorem rel_append (o : Nat → Option Nat) (tip tipE since : Nat) (cm : CellMeta)
    (s : SinceState) :
    ∃ t, (verify_relative_lock o tip tipE since cm s).2.queries = s.queries ++ t := by
  unfold verify_relative_lock
  by_cases hr : Since.is_relative since = true
  · rw [if_pos hr]
    rcases cm.block_info with _ | bi
    · exact ⟨[], by simp⟩
    · rcases Since.extract_metric since with _ | m
      · exact ⟨[], by simp⟩
      · rcases m with v | v | v
        · exact ⟨[], by simp⟩
        · exact ⟨[], by simp⟩
        · obtain ⟨t1, ht1⟩ := bmt_append o (tip - 1) s
          obtain ⟨t2, ht2⟩ := bmt_append o (bi.number - 1) (block_median_time o (tip - 1) s).2
          exact ⟨t1 ++ t2, by rw [ht2, ht1, List.append_assoc]⟩
  · rw [if_neg hr]
    exact ⟨[], by simp⟩

/-- The relative branch preserves the invariant under the capacity
bound. -/
theorem rel_inv (o : Nat → Option Nat) (tip tipE since : Nat) (cm : CellMeta)
    (s : SinceState) (h : CacheInv s)
    (hb : (verify_relative_lock o tip tipE since cm s).2.queries.toFinset.card ≤
      s.cache.capacity) :
    CacheInv (verify_relative_lock o tip tipE since cm s).2 := by
  revert hb
  unfold verify_relative_lock
  by_cases hr : Since.is_relative since = true
  · rw [if_pos hr]
    rcases cm.block_info with _ | bi
    · intro hb
      exact h
    · rcases Since.extract_metric since with _ | m
      · intro hb
        exact h
      · rcases m with v | v | v
        · intro hb
          exact h
        · intro hb
          exact h
        · intro hb
          obtain ⟨t2, ht2⟩ := bmt_append o (bi.number - 1) (block_median_time o (tip - 1) s).2
          have h1 : (block_median_time o (tip - 1) s).2.queries.toFinset.card ≤
              s.cache.capacity := by
            refine le_trans ?_ hb
            rw [ht2]
            exact card_mono_of_append _ _
          have hinv1 := bmt_inv o (tip - 1) s h h1
          have hb2 : (block_median_time o (bi.number - 1)
              (block_median_time o (tip - 1) s).2).2.queries.toFinset.card ≤
              (block_median_time o (tip - 1) s).2.cache.capacity := by
            rw [bmt_cap]
            exact hb
          exact bmt_inv o (bi.number - 1) _ hinv1 hb2
  · rw [if_neg hr]
    intro hb
    exact h

/-- A since-loop iteration keeps the capacity. -/
theorem input_cap (o : Nat → Option Nat) (tip tipE : Nat) (rop : ResolvedOutPoint)
    (inp : CellInput) (s : SinceState) :
    (verify_since_input o tip tipE rop inp s).2.cache.capacity = s.cache.capacity := by
  unfold verify_since_input
  rcases rop with _ | cm
  · rfl
  · simp only [ResolvedOutPoint.cell]
    by_cases h0 : inp.since = 0
    · rw [if_pos h0]
    · rw [if_neg h0]
      by_cases hf : (! Since.flags_is_valid inp.since) = true
      · rw [if_pos hf]
      · rw [if_neg hf]
        rcases hab : verify_absolute_lock o tip tipE inp.since s with ⟨rab, sab⟩
        have hcap : sab.cache.capacity = s.cache.capacity := by
          rw [show sab = (verify_absolute_lock o tip tipE inp.since s).2 from by rw [hab]]
          exact abs_cap o tip tipE inp.since s
        rcases rab with e | u
        · exact hcap
        · rw [rel_cap]
          exact hcap

/-- A since-loop iteration only appends to the query log. -/
theorem input_append (o : Nat → Option Nat) (tip tipE : Nat) (rop : ResolvedOutPoint)
    (inp : CellInput) (s : SinceState) :
    ∃ t, (verify_since_input o tip tipE rop inp s).2.queries = s.queries ++ t := by
  unfold verify_since_input
  rcases rop with _ | cm
  · exact ⟨[], by simp [ResolvedOutPoint.cell]⟩
  · simp only [ResolvedOutPoint.cell]
    by_cases h0 : inp.since = 0
    · rw [if_pos h0]
      exact ⟨[], by simp⟩
    · rw [if_neg h0]
      by_cases hf : (! Since.flags_is_valid inp.since) = true
      · rw [if_pos hf]
        exact ⟨[], by simp⟩
      · rw [if_neg hf]
        rcases hab : verify_absolute_lock o tip tipE inp.since s with ⟨rab, sab⟩
        obtain ⟨t1, ht1⟩ := abs_append o tip tipE inp.since s
        rw [hab] at ht1
        rcases rab with e | u
        · exact ⟨t1, ht1⟩
        · obtain ⟨t2, ht2⟩ := rel_append o tip tipE inp.since cm sab
          exact ⟨t1 ++ t2, by rw [ht2, ht1, List.append_assoc]⟩

/-- A since-loop iteration preserves the invariant under the capacity
bound. -/
theorem input_inv (o : Nat → Option Nat) (tip tipE : Nat) (rop : ResolvedOutPoint)
    (inp : CellInput) (s : SinceState) (h : CacheInv s)
    (hb : (verify_since_input o tip tipE rop inp s).2.queries.toFinset.card ≤
      s.cache.capacity) :
    CacheInv (verify_since_input o tip tipE rop inp s).2 := by
  revert hb
  unfold verify_since_input
  rcases rop with _ | cm
  · intro hb
    exact h
  · simp only [ResolvedOutPoint.cell]
    by_cases h0 : inp.since = 0
    · rw [if_pos h0]
      intro hb
      exact h
    · rw [if_neg h0]
      by_cases hf : (! Since.flags_is_valid inp.since) = true
      · rw [if_pos hf]
        intro hb
        exact h
      · rw [if_neg hf]
        rcases hab : verify_absolute_lock o tip tipE inp.since s with ⟨rab, sab⟩
        have habs : sab = (verify_absolute_lock o tip tipE inp.since s).2 := by rw [hab]
        have hcap : sab.cache.capacity = s.cache.capacity := by
          rw [habs]
          exact abs_cap o tip tipE inp.since s
        rcases rab with e | u
        · intro hb
          rw [habs]
          exact abs_inv o tip tipE inp.since s h (by rw [← habs]; exact hb)
        · intro hb
          obtain ⟨t2, ht2⟩ := rel_append o tip tipE inp.since cm sab
          have h1 : sab.queries.toFinset.card ≤ s.cache.capacity := by
            refine le_trans ?_ hb
            rw [ht2]
            exact card_mono_of_append _ _
          have hinv1 : CacheInv sab := by
            rw [habs]
            exact abs_inv o tip tipE inp.since s h (by rw [← habs]; exact h1)
          exact rel_inv o tip tipE inp.since cm sab hinv1 (by rw [hcap]; exact hb)

/-- The since loop keeps the capacity. -/
theorem loop_cap (o : Nat → Option Nat) (tip tipE : Nat)
    (l : List (ResolvedOutPoint × CellInput)) (s : SinceState) :
    (since_verify_loop o tip tipE l s).2.cache.capacity = s.cache.capacity := by
  induction l generalizing s with
  | nil => rfl
  | cons x rest ih =>
    rcases x with ⟨rop, inp⟩
    unfold since_verify_loop
    rcases hi : verify_since_input o tip tipE rop inp s with ⟨ri, si⟩
    have hcap : si.cache.capacity = s.cache.capacity := by
      rw [show si = (verify_since_input o tip tipE rop inp s).2 from by rw [hi]]
      exact input_cap o tip tipE rop inp s
    rcases ri with e | u
    · exact hcap
    · rw [ih si]
      exact hcap

/-- The since loop only appends to the query log. -/
theorem loop_append (o : Nat → Option Nat) (tip tipE : Nat)
    (l : List (ResolvedOutPoint × CellInput)) (s : SinceState) :
    ∃ t, (since_verify_loop o tip tipE l s).2.queries = s.queries ++ t := by
  induction l generalizing s with
  | nil => exact ⟨[], by simp [since_verify_loop]⟩
  | cons x rest ih =>
    rcases x with ⟨rop, inp⟩
    unfold since_verify_loop
    rcases hi : verify_since_input o tip tipE rop inp s with ⟨ri, si⟩
    obtain ⟨t1, ht1⟩ := input_append o tip tipE rop inp s
    rw [hi] at ht1
    rcases ri with e | u
    · exact ⟨t1, ht1⟩
    · obtain ⟨t2, ht2⟩ := ih si
      exact ⟨t1 ++ t2, by rw [ht2, ht1, List.append_assoc]⟩

/-- The since loop preserves the invariant under the capacity bound. -/
theorem loop_inv (o : Nat → Option Nat) (tip tipE : Nat)
    (l : List (ResolvedOutPoint × CellInput)) (s : SinceState) (h : CacheInv s)
    (hb : (since_verify_loop o tip tipE l s).2.queries.toFinset.card ≤ s.cache.capacity) :
    CacheInv (since_verify_loop o tip tipE l s).2 := by
  induction l generalizing s with
  | nil => exact h
  | cons x rest ih =>
    revert hb
    rcases x with ⟨rop, inp⟩
    unfold since_verify_loop
    rcases hi : verify_since_input o tip tipE rop inp s with ⟨ri, si⟩
    have hsi : si = (verify_since_input o tip tipE rop inp s).2 := by rw [hi]
    have hcap : si.cache.capacity = s.cache.capacity := by
      rw [hsi]
      exact input_cap o tip tipE rop inp s
    rcases ri with e | u
    · intro hb
      rw [hsi]
      exact input_inv o tip tipE rop inp s h (by rw [← hsi]; exact hb)
    · intro hb
      obtain ⟨t2, ht2⟩ := loop_append o tip tipE rest si
      have h1 : si.queries.toFinset.card ≤ s.cache.capacity := by
        refine le_trans ?_ hb
        rw [ht2]
        exact card_mono_of_append _ _
      have hinv1 : CacheInv si := by
        rw [hsi]
        exact input_inv o tip tipE rop inp s h (by rw [← hsi]; exact h1)
      exact ih si hinv1 (by rw [hcap]; exact hb)

/-- Counterexample to C5 as stated: with one relative-timestamp input the
capacity-one cache evicts the tip entry, and the second verify call
queries block number 4 (the tip lookup) a second time. -/
theorem median_time_cache_requery_counterexample :
    (two_since_verifies c5_oracle 5 0 c5_rtx).queries.count 4 = 2
    ∧ ¬ (∀ n, (two_since_verifies c5_oracle 5 0 c5_rtx).queries.count n ≤ 1) := by
  refine ⟨by decide, ?_⟩
  intro h
  have h4 := h 4
  have h2 : (two_since_verifies c5_oracle 5 0 c5_rtx).queries.count 4 = 2 := by decide
  omega

/-- Claim C5, amended: two successive verify calls on one SinceVerifier
instance issue at most one oracle query per distinct block number
argument, provided the distinct block numbers queried fit in the cache
capacity (the number of resolved inputs). -/
theorem median_time_cache_single_query (rtx : ResolvedTransaction)
    (oracle : Nat → Option Nat) (tip tipE : Nat)
    (hcard : (two_since_verifies oracle tip tipE rtx).queries.toFinset.card ≤
      rtx.resolved_inputs.length) :
    ∀ n, (two_since_verifies oracle tip tipE rtx).queries.count n ≤ 1 := by
  have hinv0 : CacheInv (init_since_state rtx) := by
    refine ⟨List.nodup_nil, List.nodup_nil, ?_⟩
    intro k
    simp [init_since_state, LruCache.keys]
  unfold two_since_verifies at hcard ⊢
  unfold since_verify at hcard ⊢
  have hcap1 : (since_verify_loop oracle tip tipE
      (rtx.resolved_inputs.zip rtx.transaction.inputs) (init_since_state rtx)).2.cache.capacity
      = rtx.resolved_inputs.length := by
    rw [loop_cap]
    rfl
  have hb1 : (since_verify_loop oracle tip tipE
      (rtx.resolved_inputs.zip rtx.transaction.inputs)
      (init_since_state rtx)).2.queries.toFinset.card ≤
      (init_since_state rtx).cache.capacity := by
    obtain ⟨t, ht⟩ := loop_append oracle tip tipE
      (rtx.resolved_inputs.zip rtx.transaction.inputs)
      (since_verify_loop oracle tip tipE (rtx.resolved_inputs.zip rtx.transaction.inputs)
        (init_since_state rtx)).2
    refine le_trans ?_ hcard
    rw [ht]
    exact card_mono_of_append _ _
  have hinv1 := loop_inv oracle tip tipE (rtx.resolved_inputs.zip rtx.transaction.inputs)
    (init_since_state rtx) hinv0 hb1
  have hinv2 := loop_inv oracle tip tipE (rtx.resolved_inputs.zip rtx.transaction.inputs)
    _ hinv1 (by rw [hcap1]; exact hcard)
  intro n
  exact List.nodup_iff_count_le_one.mp hinv2.1 n

/-- Witness for the amended C5 at a concrete in-capacity scenario. -/
theorem median_time_cache_single_query_witness :
    (two_since_verifies c5_oracle 5 0 c5w_rtx).queries.count 4 ≤ 1 :=
  median_time_cache_single_query c5w_rtx c5_oracle 5 0 (by decide) 4

end Ckb
